import Mathlib

/-!
Verification development for the conda-vendor mirroring pipeline
(src/conda_vendor/conda_vendor.py).  The Python source is shallowly
embedded: byte strings are lists of naturals below 256, 32-bit machine
arithmetic is natural-number arithmetic reduced modulo 2^32, the network
is an oracle function from URLs to bytes, and the side-effecting driver
is modelled as a function producing an explicit event trace.
-/

namespace CondaVendor

/-! ### SHA-256 (embedding of hashlib.sha256(...).hexdigest())

The downloader verifies each artifact with
`hashlib.sha256(file_data).hexdigest()`; we embed the full FIPS-180-4
SHA-256 computation so digest comparisons can be evaluated on concrete
byte strings.  Words are naturals kept below 2^32 by `w32`. -/

def w32 (x : Nat) : Nat := x % 4294967296

def rotr (n x : Nat) : Nat := w32 ((x >>> n) ||| (x <<< (32 - n)))

def bsig0 (x : Nat) : Nat := rotr 2 x ^^^ rotr 13 x ^^^ rotr 22 x

def bsig1 (x : Nat) : Nat := rotr 6 x ^^^ rotr 11 x ^^^ rotr 25 x

def ssig0 (x : Nat) : Nat := rotr 7 x ^^^ rotr 18 x ^^^ (x >>> 3)

def ssig1 (x : Nat) : Nat := rotr 17 x ^^^ rotr 19 x ^^^ (x >>> 10)

def chf (x y z : Nat) : Nat := (x &&& y) ^^^ ((x ^^^ 4294967295) &&& z)

def majf (x y z : Nat) : Nat := (x &&& y) ^^^ (x &&& z) ^^^ (y &&& z)

def shaK : List Nat :=
  [1116352408, 1899447441, 3049323471, 3921009573,
   961987163, 1508970993, 2453635748, 2870763221,
   3624381080, 310598401, 607225278, 1426881987,
   1925078388, 2162078206, 2614888103, 3248222580,
   3835390401, 4022224774, 264347078, 604807628,
   770255983, 1249150122, 1555081692, 1996064986,
   2554220882, 2821834349, 2952996808, 3210313671,
   3336571891, 3584528711, 113926993, 338241895,
   666307205, 773529912, 1294757372, 1396182291,
   1695183700, 1986661051, 2177026350, 2456956037,
   2730485921, 2820302411, 3259730800, 3345764771,
   3516065817, 3600352804, 4094571909, 275423344,
   430227734, 506948616, 659060556, 883997877,
   958139571, 1322822218, 1537002063, 1747873779,
   1955562222, 2024104815, 2227730452, 2361852424,
   2428436474, 2756734187, 3204031479, 3329325298]

def shaH0 : List Nat :=
  [1779033703, 3144134277, 1013904242, 2773480762,
   1359893119, 2600822924, 528734635, 1541459225]

def beBytes8 (n : Nat) : List Nat :=
  [(n >>> 56) % 256, (n >>> 48) % 256, (n >>> 40) % 256, (n >>> 32) % 256,
   (n >>> 24) % 256, (n >>> 16) % 256, (n >>> 8) % 256, n % 256]

def padMessage (msg : List Nat) : List Nat :=
  let len := msg.length
  let padZeros := (119 - len % 64) % 64
  msg ++ [0x80] ++ List.replicate padZeros 0 ++ beBytes8 (8 * len)

def chunksGo : Nat → List Nat → List (List Nat)
  | 0, _ => []
  | _, [] => []
  | fuel + 1, l => l.take 64 :: chunksGo fuel (l.drop 64)

def chunks64 (l : List Nat) : List (List Nat) := chunksGo (l.length + 1) l

def bytesToWords : List Nat → List Nat
  | a :: b :: c :: d :: rest =>
      (((a % 256) <<< 24) ||| ((b % 256) <<< 16) ||| ((c % 256) <<< 8) ||| (d % 256))
        :: bytesToWords rest
  | _ => []

def extendSchedule : Nat → List Nat → List Nat
  | 0, w => w
  | n + 1, w =>
      let t := w.length
      let nw := w32 (ssig1 (w.getD (t - 2) 0) + w.getD (t - 7) 0 +
                     ssig0 (w.getD (t - 15) 0) + w.getD (t - 16) 0)
      extendSchedule n (w ++ [nw])

def roundFn (st : List Nat) (kw : Nat × Nat) : List Nat :=
  match st with
  | [a, b, c, d, e, f, g, h] =>
      let t1 := w32 (h + bsig1 e + chf e f g + kw.1 + kw.2)
      let t2 := w32 (bsig0 a + majf a b c)
      [w32 (t1 + t2), a, b, c, w32 (d + t1), e, f, g]
  | other => other

def processBlock (h : List Nat) (block : List Nat) : List Nat :=
  let w := extendSchedule 48 (bytesToWords block)
  let st := (shaK.zip w).foldl roundFn h
  (h.zip st).map (fun p => w32 (p.1 + p.2))

def sha256words (msg : List Nat) : List Nat :=
  (chunks64 (padMessage msg)).foldl processBlock shaH0

def hexChar (n : Nat) : Char :=
  if n < 10 then Char.ofNat (48 + n) else Char.ofNat (87 + n)

def wordToHex (n : Nat) : List Char :=
  [hexChar ((n >>> 28) % 16), hexChar ((n >>> 24) % 16),
   hexChar ((n >>> 20) % 16), hexChar ((n >>> 16) % 16),
   hexChar ((n >>> 12) % 16), hexChar ((n >>> 8) % 16),
   hexChar ((n >>> 4) % 16), hexChar (n % 16)]

/-- Lowercase hexadecimal SHA-256 digest of a byte string, as produced by
`hashlib.sha256(data).hexdigest()` in the source. -/
def sha256hex (msg : List Nat) : String :=
  String.mk ((sha256words msg).foldr (fun wd acc => wordToHex wd ++ acc) [])


/-! ### Data model

`FetchA` embeds the conda-lock `FetchAction` TypedDict (all fields listed in
the source comment); `LinkA` embeds the one field of a LINK action that
the source consults (`base_url`); `DryRunInstall` embeds the solver
solution dictionary `{actions: {FETCH: [...], LINK: [...]}, success}`. -/

structure FetchA where
  channel : String
  constrains : Option (List String)
  depends : Option (List String)
  fn : String
  md5 : String
  sha256 : Option String
  name : String
  subdir : String
  timestamp : Nat
  url : String
  version : String
deriving DecidableEq, Repr

structure LinkA where
  base_url : String
deriving DecidableEq, Repr

structure CondaActions where
  FETCH : List FetchA
  LINK : List LinkA
deriving DecidableEq, Repr

structure DryRunInstall where
  success : Bool
  actions : CondaActions
deriving DecidableEq, Repr

/-- Embedding of `_remove_channel(solution, channel)`: keep each FETCH
entry unless its channel starts with the given channel URL, and keep each
LINK entry unless its base_url equals the channel URL. -/
def _remove_channel (solution : DryRunInstall) (channel : String) : DryRunInstall :=
  let fetch := solution.actions.FETCH.filter (fun e => !(e.channel.startsWith channel))
  let link := solution.actions.LINK.filter (fun e => !(e.base_url == channel))
  { solution with actions := { FETCH := fetch, LINK := link } }

/-! ### Index reconstruction (_reconstruct_repodata_json)

An upstream repodata document is a JSON object whose `packages` and
`packages.conda` keys may each be absent; present partitions are
insertion-ordered mappings from filename to an entry, modelled as
association lists, polymorphic in the entry payload (the source copies
entries verbatim).  `.get(key, {})` becomes `Option.getD _ []`. -/

structure RepoDoc (α : Type) where
  packages : Option (List (String × α))
  packagesConda : Option (List (String × α))

structure ReconOut (α : Type) where
  info_subdir : String
  packages : List (String × α)
  packagesConda : List (String × α)

/-- Last path component, embedding `pathlib.Path.name` for the slash-joined
paths the source builds. -/
def dirName (p : String) : String := (p.splitOn "/").getLastD ""

/-- Embedding of `_reconstruct_repodata_json`: the upstream document
(already fetched, first argument) is filtered to the entries whose
filename occurs as some `fn` of the package list; missing upstream
partitions default to empty; the output carries `info.subdir` equal to
the destination directory name. -/
def _reconstruct_repodata_json (live : RepoDoc α) (dest_dir : String)
    (package_list : List FetchA) : ReconOut α :=
  let valid_names := package_list.map (·.fn)
  let _packages := live.packages.getD []
  let _packages_dot_conda := live.packagesConda.getD []
  { info_subdir := dirName dest_dir
    packages := _packages.filter (fun e => valid_names.contains e.1)
    packagesConda := _packages_dot_conda.filter (fun e => valid_names.contains e.1) }

/-- Boolean substring test on character lists, embedding the Python
`subdir in channel` membership test on strings. -/
def takeEq : List Char → List Char → Bool
  | [], _ => true
  | _ :: _, [] => false
  | a :: as, b :: bs => a == b && takeEq as bs

def containsSub : List Char → List Char → Bool
  | needle, [] => needle.isEmpty
  | needle, c :: rest => takeEq needle (c :: rest) || containsSub needle rest

/-- Embedding of the driving loop of `create_repodata_json`: deduplicate
the channels and subdirectories of the package list, then invoke one
reconstruction for every subdirectory paired with every channel that
contains it as a substring.  The returned list is the sequence of
(subdir, channel) reconstruction invocations. -/
def create_repodata_invocations (package_list : List FetchA) : List (String × String) :=
  let channels := (package_list.map (·.channel)).dedup
  let subdirs := (package_list.map (·.subdir)).dedup
  subdirs.flatMap (fun s =>
    (channels.filter (fun c => containsSub s.data c.data)).map (fun c => (s, c)))

/-! ### Artifact download and digest verification (download_packages)

The network is an oracle `net : url → bytes`.  The function returns the
list of file writes performed, in order, as (directory, filename, bytes)
triples, together with `some message` when the run aborted via
`sys.exit("SHA256 Checksum Validation Failed")` and `none` on full
success.  The digest check precedes the write, and an abort stops the
whole loop, exactly as in the source. -/

def download_packages (net : String → List Nat) (package_list : List FetchA)
    (vendored_root : String) : List (String × String × List Nat) × Option String :=
  match package_list with
  | [] => ([], none)
  | pkg :: rest =>
      let dest_dir := vendored_root ++ "/" ++ pkg.subdir
      let file_data := net pkg.url
      let sha256 := sha256hex file_data
      if (some sha256 : Option String) ≠ pkg.sha256 then
        ([], some "SHA256 Checksum Validation Failed")
      else
        let r := download_packages net rest vendored_root
        ((dest_dir, pkg.fn, file_data) :: r.1, r.2)

/-! ### The vendor driver as an event trace

`vendor` is modelled as a function from its decision inputs (does the
destination root already exist, dry-run flag, ironbank flag, solver
outcome) to the ordered list of observable effects it performs.  Colored
log lines are not effects; directory creation, solving, the dry-run JSON
dump, index writes, artifact writes, the manifest write and process exit
are.  `solveRes = none` models the solver reporting failure (which makes
`solve_environment` exit 1 after the solve). -/

inductive Event where
  | mkdir (path : String)
  | solve
  | emit (pkgs : List FetchA)
  | writeIndex (path : String)
  | writeArtifact (dir : String) (fn : String)
  | writeFile (path : String)
  | exit (code : Nat)
deriving DecidableEq, Repr

/-- Is the event a filesystem mutation? -/
def Event.isFsWrite : Event → Bool
  | .mkdir _ => true
  | .writeIndex _ => true
  | .writeArtifact _ _ => true
  | .writeFile _ => true
  | _ => false

def createRepodataEvents (package_list : List FetchA) (vendored_root : String) :
    List Event :=
  (create_repodata_invocations package_list).map
    (fun p => Event.writeIndex (vendored_root ++ "/" ++ p.1 ++ "/repodata.json"))

def downloadEvents (net : String → List Nat) (package_list : List FetchA)
    (vendored_root : String) (ironbank_gen : Bool) : List Event :=
  let r := download_packages net package_list vendored_root
  r.1.map (fun w => Event.writeArtifact w.1 w.2.1) ++
    (match r.2 with
     | some _ => [Event.exit 1]
     | none => if ironbank_gen then [Event.writeFile "ib_manifest.yaml"] else [])

/-- Embedding of the control flow of the `vendor` CLI command: check the
destination root first; create the root, platform and noarch directories
only when not a dry run; solve; on dry run dump the package list and exit
0; otherwise reconstruct the indices, download with verification, and
optionally write the ironbank manifest. -/
def vendorTrace (net : String → List Nat) (rootExists dry_run ironbank_gen : Bool)
    (vendored_root platform : String) (solveRes : Option (List FetchA)) : List Event :=
  if rootExists then [Event.exit 1]
  else
    (if dry_run then []
     else [Event.mkdir vendored_root,
           Event.mkdir (vendored_root ++ "/" ++ platform),
           Event.mkdir (vendored_root ++ "/noarch")]) ++
    [Event.solve] ++
    match solveRes with
    | none => [Event.exit 1]
    | some package_list =>
        if dry_run then [Event.emit package_list, Event.exit 0]
        else
          createRepodataEvents package_list vendored_root ++
          downloadEvents net package_list vendored_root ironbank_gen

/-- A concrete fetch descriptor used to instantiate theorems on concrete
inputs; the expected digest is the argument. -/
def samplePkg (digest : Option String) : FetchA :=
  { channel := "https://conda.anaconda.org/main/linux-64"
    constrains := none
    depends := none
    fn := "pkg-1.0-0.tar.bz2"
    md5 := ""
    sha256 := digest
    name := "pkg"
    subdir := "linux-64"
    timestamp := 0
    url := "https://example.com/pkg-1.0-0.tar.bz2"
    version := "1.0" }

/-- ASCII lowercasing of a character, as Python str.lower acts on the
hexadecimal digest strings at issue. -/
def lowerChar (c : Char) : Char :=
  if 65 ≤ c.toNat then
    if c.toNat ≤ 90 then Char.ofNat (c.toNat + 32) else c
  else c

/-- ASCII lowercase form of a string (the spec notion of the lowercase
form of an expected hex digest). -/
def strToLower (s : String) : String := String.mk (s.data.map lowerChar)

/-! ### Helper lemmas -/

theorem length_filter_not (p : α → Bool) (l : List α) :
    (l.filter (fun a => !p a)).length = l.length - l.countP p := by
  induction l with
  | nil => simp
  | cons a l ih =>
      have hle := List.countP_le_length (p := p) (l := l)
      by_cases h : p a <;>
        simp [List.filter_cons, List.countP_cons, h, ih] <;> omega

theorem string_append_left_cancel {s t u : String} (h : s ++ t = s ++ u) : t = u := by
  have hd : s.data ++ t.data = s.data ++ u.data := by
    have := congrArg String.data h
    simpa using this
  have hdu : t.data = u.data := List.append_cancel_left hd
  cases t
  cases u
  exact congrArg String.mk hdu

/-- The embedded SHA-256 agrees with the FIPS 180-4 test vectors for the
empty message and for the three-byte message abc. -/
theorem sha256hex_test_vectors :
    sha256hex [] =
      "e3b0c44298fc1c149afbf4c8996fb92427ae41e4649b934ca495991b7852b855" ∧
    sha256hex [97, 98, 99] =
      "ba7816bf8f01cfea414140de5dae2223b00361a396177a9cb410ff61f20015ad" := by
  exact ⟨by decide, by decide⟩

/-! ### Claim theorems -/

/-- C4: filtering the synthetic channel out of the FETCH list leaves no
descriptor whose channel starts with the channel URL, yields exactly the
original length minus the number of matching descriptors, and preserves
the relative order of the rest (the output is a sublist of the input). -/
theorem remove_channel_fetch_spec (sol : DryRunInstall) (C : String) :
    (∀ d ∈ (_remove_channel sol C).actions.FETCH, d.channel.startsWith C = false) ∧
    ((_remove_channel sol C).actions.FETCH.length =
      sol.actions.FETCH.length -
        sol.actions.FETCH.countP (fun d => d.channel.startsWith C)) ∧
    List.Sublist (_remove_channel sol C).actions.FETCH sol.actions.FETCH := by
  refine ⟨?_, ?_, ?_⟩
  · intro d hd
    have := (List.mem_filter.1 hd).2
    simpa using this
  · exact length_filter_not (fun d => d.channel.startsWith C) sol.actions.FETCH
  · exact List.filter_sublist _

/-- C7: an upstream index document missing the `packages` partition (or
the `packages.conda` partition) is treated as having an empty partition:
reconstruction still returns a document, and the partition that was
missing upstream contributes no entries at all. -/
theorem reconstruct_missing_partitions {α : Type} (pk pc : Option (List (String × α)))
    (dest_dir : String) (D : List FetchA) :
    (_reconstruct_repodata_json (⟨none, pc⟩ : RepoDoc α) dest_dir D).packages = [] ∧
    (_reconstruct_repodata_json (⟨pk, none⟩ : RepoDoc α) dest_dir D).packagesConda = [] := by
  exact ⟨by simp [_reconstruct_repodata_json], by simp [_reconstruct_repodata_json]⟩

/-- C8: index reconstruction is deterministic and idempotent: two runs on
the same upstream document and descriptor list agree on the subdir field
and on every filename lookup in both partitions. -/
theorem reconstruct_idempotent {α : Type} (live : RepoDoc α) (dest_dir : String)
    (D : List FetchA) :
    (_reconstruct_repodata_json live dest_dir D).info_subdir =
      (_reconstruct_repodata_json live dest_dir D).info_subdir ∧
    (∀ k : String,
      List.lookup k (_reconstruct_repodata_json live dest_dir D).packages =
        List.lookup k (_reconstruct_repodata_json live dest_dir D).packages) ∧
    (∀ k : String,
      List.lookup k (_reconstruct_repodata_json live dest_dir D).packagesConda =
        List.lookup k (_reconstruct_repodata_json live dest_dir D).packagesConda) :=
  ⟨rfl, fun _ => rfl, fun _ => rfl⟩

/-- C3: the reconstructed index has subdir field equal to the destination
directory name, and the union of the filename keys of its two partitions
is exactly the set of descriptor filenames intersected with the keys
present in the upstream partitions; upstream entries not referenced by a
descriptor never appear. -/
theorem reconstruct_repodata_keys {α : Type} (live : RepoDoc α) (dest_dir : String)
    (D : List FetchA) :
    (_reconstruct_repodata_json live dest_dir D).info_subdir = dirName dest_dir ∧
    ∀ fname : String,
      (fname ∈ ((_reconstruct_repodata_json live dest_dir D).packages.map Prod.fst) ∨
       fname ∈ ((_reconstruct_repodata_json live dest_dir D).packagesConda.map Prod.fst)) ↔
      (fname ∈ D.map FetchA.fn ∧
        (fname ∈ ((live.packages.getD []).map Prod.fst) ∨
         fname ∈ ((live.packagesConda.getD []).map Prod.fst))) := by
  refine ⟨rfl, ?_⟩
  intro fname
  simp only [_reconstruct_repodata_json, List.mem_map, List.mem_filter]
  constructor
  · rintro (⟨e, ⟨he, hv⟩, hf⟩ | ⟨e, ⟨he, hv⟩, hf⟩) <;>
      subst hf
    · exact ⟨by simpa using hv, Or.inl ⟨e, he, rfl⟩⟩
    · exact ⟨by simpa using hv, Or.inr ⟨e, he, rfl⟩⟩
  · rintro ⟨hv, (⟨e, he, hf⟩ | ⟨e, he, hf⟩)⟩ <;> subst hf
    · exact Or.inl ⟨e, ⟨he, by simpa using hv⟩, rfl⟩
    · exact Or.inr ⟨e, ⟨he, by simpa using hv⟩, rfl⟩

/-- C9: the reconstruction driver deduplicates subdirectories and
channels and invokes one reconstruction per (subdir, channel) pair whose
channel contains the subdir as a substring: the invocation list has no
duplicate pair, and a pair occurs in it exactly when the subdir and the
channel occur in the descriptor list and the substring test succeeds. -/
theorem create_repodata_pairs_spec (D : List FetchA) :
    (create_repodata_invocations D).Nodup ∧
    ∀ s c : String,
      ((s, c) ∈ create_repodata_invocations D ↔
        (s ∈ D.map FetchA.subdir ∧ c ∈ D.map FetchA.channel ∧
          containsSub s.data c.data = true)) := by
  constructor
  · refine List.nodup_flatMap.2 ⟨?_, ?_⟩
    · intro s _
      exact (((D.map FetchA.channel).nodup_dedup).filter _).map
        (fun c1 c2 h => congrArg Prod.snd h)
    · refine ((D.map FetchA.subdir).nodup_dedup).imp ?_
      intro s1 s2 hne p hp1 hp2
      have h1 : p.1 = s1 := by
        rcases List.mem_map.1 hp1 with ⟨c, _, hc⟩
        exact hc ▸ rfl
      have h2 : p.1 = s2 := by
        rcases List.mem_map.1 hp2 with ⟨c, _, hc⟩
        exact hc ▸ rfl
      exact hne (h1 ▸ h2)
  · intro s c
    simp only [create_repodata_invocations, List.mem_flatMap, List.mem_map,
      List.mem_filter, List.mem_dedup]
    constructor
    · rintro ⟨s1, hs1, c1, ⟨hc1, hsub⟩, heq⟩
      injection heq with h1 h2
      subst h1
      subst h2
      exact ⟨hs1, hc1, hsub⟩
    · rintro ⟨hs, hc, hsub⟩
      exact ⟨s, hs, c, ⟨hc, hsub⟩, rfl⟩

/-- C1 (counterexample): the digest comparison in `download_packages` is
not case-insensitive.  With artifact bytes [] and an expected digest that
is the uppercase form of the correct SHA-256 digest, the lowercase
computed digest equals the lowercase form of the expected digest, yet the
run aborts instead of accepting: the claimed acceptance condition is
false at this input. -/
theorem download_case_insensitive_counterexample :
    ¬ (((download_packages (fun _ => [])
          [samplePkg (some "E3B0C44298FC1C149AFBF4C8996FB92427AE41E4649B934CA495991B7852B855")]
          "root").2 = none) ↔
        sha256hex [] =
          strToLower "E3B0C44298FC1C149AFBF4C8996FB92427AE41E4649B934CA495991B7852B855") := by
  decide

/-- C1 (amended): the downloader accepts an artifact, and writes it, if
and only if the descriptor expected digest equals the computed lowercase
hex SHA-256 of the bytes by exact, case-sensitive string equality; an
expected digest differing only in letter case is rejected. -/
theorem download_accepts_iff_exact_digest (net : String → List Nat) (pkg : FetchA)
    (root : String) :
    ((download_packages net [pkg] root).2 = none ↔
      pkg.sha256 = some (sha256hex (net pkg.url))) ∧
    ((download_packages net [pkg] root).1 =
        [(root ++ "/" ++ pkg.subdir, pkg.fn, net pkg.url)] ↔
      pkg.sha256 = some (sha256hex (net pkg.url))) := by
  by_cases h : pkg.sha256 = some (sha256hex (net pkg.url)) <;>
    simp [download_packages, h, eq_comm]

/-- C2: if some descriptor in the list has a computed digest different
from its expected digest then the run aborts with the checksum failure
message, the file of the mismatching descriptor is never among the writes
performed (given the data-model invariant that (subdir, filename) pairs
are distinct across the list), and every write actually performed belongs
to a descriptor whose digest verified. -/
theorem download_mismatch_aborts (net : String → List Nat) (pkgs : List FetchA)
    (root : String) (d : FetchA) (hd : d ∈ pkgs)
    (hmis : (some (sha256hex (net d.url)) : Option String) ≠ d.sha256)
    (huniq : pkgs.Pairwise (fun a b => a.subdir ≠ b.subdir ∨ a.fn ≠ b.fn)) :
    (download_packages net pkgs root).2 = some "SHA256 Checksum Validation Failed" ∧
    (∀ w ∈ (download_packages net pkgs root).1,
        ¬ (w.1 = root ++ "/" ++ d.subdir ∧ w.2.1 = d.fn)) ∧
    (∀ w ∈ (download_packages net pkgs root).1, ∃ p ∈ pkgs,
        w = (root ++ "/" ++ p.subdir, p.fn, net p.url) ∧
        (some (sha256hex (net p.url)) : Option String) = p.sha256) := by
  induction pkgs with
  | nil => cases hd
  | cons p rest ih =>
      by_cases hp : (some (sha256hex (net p.url)) : Option String) = p.sha256
      · have hdp : d ≠ p := by
          intro h
          exact hmis (h ▸ hp)
        have hdr : d ∈ rest := by
          rcases List.mem_cons.1 hd with h | h
          · exact absurd h hdp
          · exact h
        have hpc := List.pairwise_cons.1 huniq
        have hrel : p.subdir ≠ d.subdir ∨ p.fn ≠ d.fn := hpc.1 d hdr
        obtain ⟨ih1, ih2, ih3⟩ := ih hdr hpc.2
        have hcond : ¬ ((some (sha256hex (net p.url)) : Option String) ≠ p.sha256) :=
          not_not_intro hp
        refine ⟨?_, ?_, ?_⟩
        · rw [download_packages, if_neg hcond]
          exact ih1
        · intro w hw
          rw [download_packages, if_neg hcond] at hw
          simp only [List.mem_cons] at hw
          rcases hw with hw | hw
          · subst hw
            rintro ⟨h1, h2⟩
            rcases hrel with h | h
            · exact h (string_append_left_cancel h1)
            · exact h h2
          · exact ih2 w hw
        · intro w hw
          rw [download_packages, if_neg hcond] at hw
          simp only [List.mem_cons] at hw
          rcases hw with hw | hw
          · exact ⟨p, List.mem_cons_self .., by simpa using hw, hp⟩
          · obtain ⟨q, hq, hwq, hqd⟩ := ih3 w hw
            exact ⟨q, List.mem_cons_of_mem _ hq, hwq, hqd⟩
      · refine ⟨?_, ?_, ?_⟩ <;>
          simp [download_packages, hp]

/-- C2 (witness): a one-element run with a wrong expected digest aborts
with the checksum message and performs no write. -/
theorem download_mismatch_aborts_witness :
    (download_packages (fun _ => []) [samplePkg (some "00")] "root").2 =
      some "SHA256 Checksum Validation Failed" ∧
    (∀ w ∈ (download_packages (fun _ => []) [samplePkg (some "00")] "root").1,
        ¬ (w.1 = "root" ++ "/" ++ (samplePkg (some "00")).subdir ∧
           w.2.1 = (samplePkg (some "00")).fn)) ∧
    (∀ w ∈ (download_packages (fun _ => []) [samplePkg (some "00")] "root").1,
        ∃ p ∈ [samplePkg (some "00")],
          w = ("root" ++ "/" ++ p.subdir, p.fn, (fun _ => ([] : List Nat)) p.url) ∧
          (some (sha256hex ((fun _ => ([] : List Nat)) p.url)) : Option String) = p.sha256) :=
  download_mismatch_aborts (fun _ => []) [samplePkg (some "00")] "root"
    (samplePkg (some "00")) (List.mem_singleton.2 rfl) (by decide)
    (List.pairwise_singleton _ _)

/-- C5: when the destination root already exists the vendor run performs
exactly one effect, exiting with code 1 — no directory is created or
altered and no solve or download happens; when the root does not exist
and the run is not a dry run, the trace begins with the creation of the
root, the platform subdirectory and the noarch subdirectory, so every
index or artifact write comes after those creations. -/
theorem vendor_root_check_and_creation (net : String → List Nat)
    (dry_run ironbank_gen : Bool) (root platform : String)
    (solveRes : Option (List FetchA)) :
    (vendorTrace net true dry_run ironbank_gen root platform solveRes =
      [Event.exit 1]) ∧
    (∃ rest,
      vendorTrace net false false ironbank_gen root platform solveRes =
        Event.mkdir root ::
        Event.mkdir (root ++ "/" ++ platform) ::
        Event.mkdir (root ++ "/noarch") :: rest) := by
  refine ⟨by simp [vendorTrace], ?_⟩
  refine ⟨[Event.solve] ++
    (match solveRes with
     | none => [Event.exit 1]
     | some package_list =>
         createRepodataEvents package_list root ++
         downloadEvents net package_list root ironbank_gen), ?_⟩
  cases solveRes <;> simp [vendorTrace]

/-- C6: a dry run on a non-existing root mutates nothing on the
filesystem — its trace contains no directory creation and no file write
of any kind — and when the solver succeeds the trace is exactly solve,
then the emission of the resolved descriptor list as the sole output,
then exit 0. -/
theorem vendor_dry_run_no_writes (net : String → List Nat) (ironbank_gen : Bool)
    (root platform : String) (solveRes : Option (List FetchA)) :
    ((vendorTrace net false true ironbank_gen root platform solveRes).all
        (fun e => !e.isFsWrite) = true) ∧
    (∀ package_list,
      vendorTrace net false true ironbank_gen root platform (some package_list) =
        [Event.solve, Event.emit package_list, Event.exit 0]) := by
  constructor
  · cases solveRes <;> simp [vendorTrace, Event.isFsWrite]
  · intro package_list
    simp [vendorTrace]

/-- C10: in dry-run mode with an already existing destination root the
run still exits with code 1, before solving: the whole trace is the exit
event and in particular contains no solve. -/
theorem vendor_dry_run_existing_root (net : String → List Nat) (ironbank_gen : Bool)
    (root platform : String) (solveRes : Option (List FetchA)) :
    vendorTrace net true true ironbank_gen root platform solveRes = [Event.exit 1] ∧
    Event.solve ∉ vendorTrace net true true ironbank_gen root platform solveRes := by
  simp [vendorTrace]

end CondaVendor
